import Mathlib

/-!
Verification development for the code-companion backend.

This file shallowly embeds the core of the repository:
  * the embedding engine (`embeddingService`): deterministic fallback
    embedding, cosine similarity, `findSimilarByEmbedding`;
  * the similarity search over PRs / commits / tickets
    (`analysisService`);
  * the context assembler and LLM analysis fallback (`llmService`);
  * the incremental PR sync loop (`githubService.syncRepoPRs`).

Numbers are modelled as rationals (JS numbers are floating point; the
arithmetic the claims depend on is exact at this granularity).
`Math.sqrt` is modelled by an explicit function parameter `sq : ℚ → ℚ`
so every definition stays computable; theorems that need the defining
property of a square root on non-negative inputs (`sqrt x = 0 ↔ x = 0`)
take it as a hypothesis.
Effectful steps (the Gemini call, the Mongo store, the GitHub fetches)
are modelled as explicit function arguments; `throw` is modelled with
`Except`.
-/

namespace CodeCompanion

/-- JS `String.prototype.split(/\s+/)` on a list of characters: splits at
each maximal non-empty whitespace run, keeping the empty pieces that JS
produces at the boundaries (`" a".split(/\s+/) = ["", "a"]`, and
`"".split(/\s+/) = [""]`). -/
def splitWsChars : List Char → List Char → List (List Char)
  | [], cur => [cur.reverse]
  | c :: rest, cur =>
    if c.isWhitespace then
      cur.reverse :: splitWsChars (rest.dropWhile Char.isWhitespace) []
    else
      splitWsChars rest (c :: cur)
termination_by l _ => l.length
decreasing_by
  · exact Nat.lt_succ_of_le (List.dropWhile_sublist _).length_le
  · simp

/-- The word list `text.toLowerCase().split(/\s+/)` as used by the deterministic
embedding. -/
def wordsOf (text : String) : List (List Char) :=
  splitWsChars text.toLower.data []

/-- Gemini embedding dimension (`EMBEDDING_DIMENSION = 768`). -/
def EMBEDDING_DIMENSION : ℕ := 768

/-- The flat list of target indices hit by the accumulation loop of
`generateDeterministicEmbedding`: for word index `i`, character index
`j`, character code `c`, the index `(c * (i+1) * (j+1)) % 768`. -/
def hitIndices (words : List (List Char)) : List ℕ :=
  (words.enum.map (fun iw =>
    (iw.2.enum.map (fun jc =>
      (jc.2.toNat * (iw.1 + 1) * (jc.1 + 1)) % EMBEDDING_DIMENSION)))).flatten

/-- Add `0.1` at position `idx` of the vector (the body of the
accumulation loop `embedding[idx] += 0.1`). -/
def bump (v : List ℚ) (idx : ℕ) : List ℚ :=
  v.set idx (v.getD idx 0 + 1/10)

/-- Sum of squares of a vector (the `reduce` under the `Math.sqrt`). -/
def sumSq (v : List ℚ) : ℚ :=
  v.foldl (fun sum val => sum + val * val) 0

/-- Dot product of two vectors of matching length (excess entries of
either vector contribute nothing; the callers only use it on
equal-length vectors). -/
def dotProd : List ℚ → List ℚ → ℚ
  | x :: xs, y :: ys => x * y + dotProd xs ys
  | _, _ => 0

/-- Function `generateDeterministicEmbedding` from `embeddingService.ts`:
start from a zero vector of dimension 768, accumulate `0.1` at
`(charCode * (i+1) * (j+1)) % 768` over the lower-cased
whitespace-split words, then divide by
`Math.sqrt(sum of squares) || 1` (modelled: `sq` of the sum of squares,
replaced by `1` when that value is `0`). -/
def generateDeterministicEmbedding (sq : ℚ → ℚ) (text : String) : List ℚ :=
  let embedding : List ℚ := List.replicate EMBEDDING_DIMENSION 0
  let words := wordsOf text
  let accumulated := (hitIndices words).foldl bump embedding
  let magnitude := if sq (sumSq accumulated) = 0 then 1 else sq (sumSq accumulated)
  accumulated.map (fun val => val / magnitude)

/-- Modelled from the spec (section 4.1): "initialize a zero vector of
fixed dimension D. Lower-case the text, split on whitespace into words.
For word index i, character index j, character code c: accumulate +0.1
at index (c * (i+1) * (j+1)) mod D. Normalize the final vector to unit
L2 norm (if the norm is zero, divide by 1 instead)."  The accumulated
vector is described entry-wise: entry `k` holds `0.1` times the number
of (word, character) pairs whose index expression equals `k`. -/
def deterministicEmbeddingSpec (sq : ℚ → ℚ) (text : String) : List ℚ :=
  let words := wordsOf text
  let raw := (List.range EMBEDDING_DIMENSION).map
    (fun k => (1/10 : ℚ) * ((hitIndices words).count k))
  let norm := sq (sumSq raw)
  raw.map (fun val => val / (if norm = 0 then 1 else norm))

/-- Function `cosineSimilarity` from `embeddingService.ts`: throws
`'Embeddings must have the same dimension'` on a length mismatch,
otherwise one loop accumulates the dot product and both squared norms;
the result is `0` when `sqrt(normA) * sqrt(normB)` is `0` and
`dot / (sqrt(normA) * sqrt(normB))` otherwise. -/
def cosineSimilarity (sq : ℚ → ℚ) (a b : List ℚ) : Except String ℚ :=
  if a.length ≠ b.length then
    .error "Embeddings must have the same dimension"
  else
    let acc := (a.zip b).foldl
      (fun (acc : ℚ × ℚ × ℚ) (xy : ℚ × ℚ) =>
        (acc.1 + xy.1 * xy.2, acc.2.1 + xy.1 * xy.1, acc.2.2 + xy.2 * xy.2))
      (0, 0, 0)
    let magnitude := sq acc.2.1 * sq acc.2.2
    .ok (if magnitude = 0 then 0 else acc.1 / magnitude)

/-- A candidate document carrying a stored embedding.  `data` stands
for the selected entity fields (PR number/title/…, commit sha/…, or
ticket key/…), which the search pipeline never inspects. -/
structure Doc (α : Type) where
  data : α
  embedding : List ℚ
deriving DecidableEq, Repr

/-- Annotate every candidate with its similarity against the query
vector (the `.map(doc => ({...doc, similarity: cosineSimilarity(...)}))`
step).  `cosineSimilarity` can throw, and the exception propagates out
of the whole pipeline, hence the `Except`. -/
def annotate (sq : ℚ → ℚ) (query : List ℚ) :
    List (Doc α) → Except String (List (Doc α × ℚ))
  | [] => .ok []
  | d :: ds =>
    match cosineSimilarity sq query d.embedding with
    | .error e => .error e
    | .ok s =>
      match annotate sq query ds with
      | .error e => .error e
      | .ok rest => .ok ((d, s) :: rest)

/-- Stable insertion for descending order by similarity: a new element
goes in front of the first element whose similarity is not strictly
greater, so earlier input elements stay in front on ties.  This models
`Array.prototype.sort((a, b) => b.similarity - a.similarity)`, which is
a stable sort. -/
def insertDesc (x : Doc α × ℚ) : List (Doc α × ℚ) → List (Doc α × ℚ)
  | [] => [x]
  | y :: ys => if x.2 < y.2 then y :: insertDesc x ys else x :: y :: ys

/-- Stable descending sort by similarity (see `insertDesc`). -/
def sortBySimDesc : List (Doc α × ℚ) → List (Doc α × ℚ)
  | [] => []
  | x :: xs => insertDesc x (sortBySimDesc xs)

/-- Function `findSimilarByEmbedding` from `embeddingService.ts`: filter the
documents to those possessing a non-empty embedding
(`doc.embedding && doc.embedding.length > 0`), annotate each with its
similarity, discard entries below `threshold`, sort descending by
similarity, truncate to `limit`. -/
def findSimilarByEmbedding (sq : ℚ → ℚ) (queryEmbedding : List ℚ)
    (documents : List (Doc α)) (threshold : ℚ := 1/2) (limit : ℕ := 10) :
    Except String (List (Doc α × ℚ)) :=
  match annotate sq queryEmbedding
      (documents.filter (fun doc => !doc.embedding.isEmpty)) with
  | .error e => .error e
  | .ok annotated =>
    .ok (((sortBySimDesc (annotated.filter (fun doc => threshold ≤ doc.2))).take limit))

/-- Function `searchSimilarPRs` from `analysisService.ts`.  The Mongo query
`GitHubPR.find({ embedding: { $exists: true, $ne: [] } })` is modelled
as filtering the persisted pool `db` to documents with a non-empty
embedding; the rest is the map / filter / sort / slice pipeline of the
source. -/
def searchSimilarPRs (sq : ℚ → ℚ) (db : List (Doc α)) (queryEmbedding : List ℚ)
    (threshold : ℚ := 3/10) (limit : ℕ := 10) :
    Except String (List (Doc α × ℚ)) :=
  match annotate sq queryEmbedding
      (db.filter (fun doc => !doc.embedding.isEmpty)) with
  | .error e => .error e
  | .ok prs =>
    .ok (((sortBySimDesc (prs.filter (fun pr => threshold ≤ pr.2))).take limit))

/-- Function `searchSimilarCommits` from `analysisService.ts` (same pipeline as
`searchSimilarPRs` over the commit pool). -/
def searchSimilarCommits (sq : ℚ → ℚ) (db : List (Doc α)) (queryEmbedding : List ℚ)
    (threshold : ℚ := 3/10) (limit : ℕ := 10) :
    Except String (List (Doc α × ℚ)) :=
  match annotate sq queryEmbedding
      (db.filter (fun doc => !doc.embedding.isEmpty)) with
  | .error e => .error e
  | .ok commits =>
    .ok (((sortBySimDesc (commits.filter (fun c => threshold ≤ c.2))).take limit))

/-- Function `searchSimilarTickets` from `analysisService.ts` (same pipeline,
default limit 5). -/
def searchSimilarTickets (sq : ℚ → ℚ) (db : List (Doc α)) (queryEmbedding : List ℚ)
    (threshold : ℚ := 3/10) (limit : ℕ := 5) :
    Except String (List (Doc α × ℚ)) :=
  match annotate sq queryEmbedding
      (db.filter (fun doc => !doc.embedding.isEmpty)) with
  | .error e => .error e
  | .ok tickets =>
    .ok (((sortBySimDesc (tickets.filter (fun t => threshold ≤ t.2))).take limit))

/-- Holds when `l₁` is an initial segment of `l₂`. -/
def PrefixOf (l₁ l₂ : List β) : Prop := ∃ t, l₁ ++ t = l₂

/-- The search-output contract of claim C5: every returned item is a
candidate from the pool with a non-empty embedding and similarity at or
above the threshold; similarities are non-increasing; at most `limit`
items; and for each similarity value the returned items appear in
stable input order (a prefix of the successfully annotated pool,
filtered to that similarity). -/
def GoodSearchOutput (sq : ℚ → ℚ) (queryEmbedding : List ℚ)
    (pool : List (Doc α)) (threshold : ℚ) (limit : ℕ)
    (out : List (Doc α × ℚ)) : Prop :=
  (∀ x ∈ out, x.1 ∈ pool ∧ x.1.embedding ≠ [] ∧ threshold ≤ x.2) ∧
  out.Pairwise (fun x y => y.2 ≤ x.2) ∧
  out.length ≤ limit ∧
  ∃ annotated,
    annotate sq queryEmbedding (pool.filter (fun doc => !doc.embedding.isEmpty)) =
      .ok annotated ∧
    ∀ s : ℚ, PrefixOf (out.filter (fun x => decide (x.2 = s)))
      ((annotated.filter (fun x => threshold ≤ x.2)).filter (fun x => decide (x.2 = s)))

/-! ### LLM analysis service (`llmService.ts`) -/

/-- Epoch milliseconds; the model of a JS `Date`. -/
abbrev Millis := Int

/-- Model of `Date.prototype.toISOString` (injective rendering of the
timestamp; the exact ISO text is display-only for the claims). -/
def isoString (t : Millis) : String := toString t

/-- JS `Array.prototype.join(sep)`: the pieces interleaved with the
separator (empty string on an empty array). -/
def joinSep (sep : String) : List String → String
  | [] => ""
  | [x] => x
  | x :: y :: t => x ++ sep ++ joinSep sep (y :: t)

/-- A `filesChanged` entry. -/
structure FileChangeM where
  path : String
  additions : Option ℕ := none
  deletions : Option ℕ := none
  status : Option String := none
deriving DecidableEq, Repr

/-- Structure `MatchedPR` from `llmService.ts`. -/
structure MatchedPR where
  prNumber : ℕ
  title : String
  description : Option String := none
  author : String
  prUrl : String
  mergedAt : Option Millis := none
  filesChanged : List FileChangeM := []
  similarity : ℚ
  diffContent : Option String := none
  labels : Option (List String) := none
deriving DecidableEq, Repr

/-- Structure `MatchedCommit` from `llmService.ts`. -/
structure MatchedCommit where
  sha : String
  message : String
  author : String
  commitUrl : String
  committedAt : Millis
  filesChanged : List FileChangeM := []
  similarity : ℚ
deriving DecidableEq, Repr

/-- Structure `MatchedTicket` from `llmService.ts`. -/
structure MatchedTicket where
  ticketKey : String
  title : String
  status : String
  priority : Option String := none
  ticketUrl : String
  similarity : ℚ
deriving DecidableEq, Repr

/-- A `relatedPRs` entry of `IAnalysisResult`, as built by the
fallback. -/
structure RelatedPR where
  prNumber : ℕ
  title : String
  description : Option String
  author : String
  url : String
  mergedAt : Option String
  relevanceScore : ℚ
  filesImpacted : List String
  filesChanged : List FileChangeM
  diffContent : Option String
  labels : Option (List String)
deriving DecidableEq, Repr

/-- A `relatedCommits` entry of `IAnalysisResult`. -/
structure RelatedCommit where
  sha : String
  message : String
  author : String
  url : String
  committedAt : String
  filesChanged : List String
deriving DecidableEq, Repr

/-- A `relatedTickets` entry of `IAnalysisResult`. -/
structure RelatedTicket where
  key : String
  title : String
  status : String
  priority : String
  url : String
deriving DecidableEq, Repr

/-- A `filesImpacted` entry of `IAnalysisResult`. -/
structure FileImpact where
  path : String
  module : String
  changeType : String
  linesChanged : ℕ
deriving DecidableEq, Repr

/-- The `fixSuggestion` part of `IAnalysisResult`. -/
structure FixSuggestion where
  title : String
  description : String
  steps : List String
  codeExample : Option String
deriving DecidableEq, Repr

/-- Structure `IAnalysisResult` (`models`): the structured analysis returned to
the caller.  `status` ranges over
`fixed | not_fixed | partially_fixed | unknown`. -/
structure AnalysisResult where
  status : String
  confidence : ℚ
  summary : String
  rootCause : String
  explanation : String
  conversationalResponse : String
  relatedPRs : List RelatedPR
  relatedCommits : List RelatedCommit
  relatedTickets : List RelatedTicket
  filesImpacted : List FileImpact
  diffAnalysis : String
  bestPractices : List String
  fixSuggestion : Option FixSuggestion
deriving DecidableEq, Repr

/-- Model of JS `(x).toFixed(1)`: `x` rounded to tenths.  The exact
decimal rendering is display-only; no claim inspects it. -/
def toFixed1 (x : ℚ) : String := toString ((round (x * 10) : ℤ) / (10 : ℚ))

/-- Model of `join(', ') || 'N/A'` for a file list. -/
def joinFilesOrNA (paths : List String) : String :=
  let j := joinSep ", " paths
  if j = "" then "N/A" else j

/-- The diff excerpt appended to a PR block when
`pr.diffContent && pr.similarity >= 0.4`: first 2000 characters of the
diff, followed by a truncation marker when the diff is longer. -/
def diffSection (diffContent : String) : String :=
  let diffExcerpt := diffContent.take 2000
  let truncated := if 2000 < diffContent.length then "\n  ... (diff truncated)" else ""
  "\n  Diff:\n```diff\n" ++ diffExcerpt ++ truncated ++ "\n```"

/-- The per-PR base block of `buildContext` (everything before the
conditional diff excerpt). -/
def prBaseInfo (pr : MatchedPR) : String :=
  let merged := match pr.mergedAt with
    | some t => toString t
    | none => "Not merged"
  let desc := match pr.description with
    | some d => if d = "" then "No description" else d
    | none => "No description"
  "\n- PR #" ++ toString pr.prNumber ++ ": " ++ pr.title ++
    " (similarity: " ++ toFixed1 (pr.similarity * 100) ++ "%)" ++
    "\n  Author: " ++ pr.author ++
    "\n  URL: " ++ pr.prUrl ++
    "\n  Merged: " ++ merged ++
    "\n  Files: " ++ joinFilesOrNA (pr.filesChanged.map (fun f => f.path)) ++
    "\n  Description: " ++ desc

/-- The per-PR block of `buildContext`: base info plus, when the PR has
non-empty diff content and similarity at least `0.4`, the diff
excerpt. -/
def prBlock (pr : MatchedPR) : String :=
  match pr.diffContent with
  | some s => if s ≠ "" ∧ 2/5 ≤ pr.similarity then prBaseInfo pr ++ diffSection s
              else prBaseInfo pr
  | none => prBaseInfo pr

/-- The per-commit block of `buildContext`. -/
def commitBlock (c : MatchedCommit) : String :=
  "\n- " ++ c.sha.take 7 ++ ": " ++ c.message ++
    " (similarity: " ++ toFixed1 (c.similarity * 100) ++ "%)" ++
    "\n  Author: " ++ c.author ++
    "\n  URL: " ++ c.commitUrl ++
    "\n  Files: " ++ joinFilesOrNA (c.filesChanged.map (fun f => f.path))

/-- The per-ticket block of `buildContext`. -/
def ticketBlock (t : MatchedTicket) : String :=
  let prio := match t.priority with
    | some p => if p = "" then "Unknown" else p
    | none => "Unknown"
  "\n- " ++ t.ticketKey ++ ": " ++ t.title ++
    " (similarity: " ++ toFixed1 (t.similarity * 100) ++ "%)" ++
    "\n  Status: " ++ t.status ++
    "\n  Priority: " ++ prio ++
    "\n  URL: " ++ t.ticketUrl

/-- Function `buildContext` from `llmService.ts`: project context, then the PR,
commit and ticket sections (placeholder text when a list is empty). -/
def buildContext (matchedPRs : List MatchedPR) (matchedCommits : List MatchedCommit)
    (matchedTickets : List MatchedTicket) (projectContext : String := "") : String :=
  let prContext := if matchedPRs.length > 0
    then joinSep "\n" (matchedPRs.map prBlock)
    else "No matching PRs found"
  let commitContext := if matchedCommits.length > 0
    then joinSep "\n" (matchedCommits.map commitBlock)
    else "No matching commits found"
  let ticketContext := if matchedTickets.length > 0
    then joinSep "\n" (matchedTickets.map ticketBlock)
    else "No matching tickets found"
  "\n" ++ projectContext ++
    "\n\n# >>> DYNAMIC KNOWLEDGE BASE SEARCH RESULTS <<<" ++
    "\n# These items were retrieved using semantic vector search from your developer database." ++
    "\n# Use these to COMPARE and DERIVE the best implementation path." ++
    "\n\n## Matched Pull Requests:\n" ++ prContext ++
    "\n \n## Matched Commits:\n" ++ commitContext ++
    "\n \n## Related Jira Tickets:\n" ++ ticketContext ++
    "\n# >>> END OF KNOWLEDGE BASE CONTEXT <<<\n"

/-- Function `getUserPrompt` from `llmService.ts`. -/
def getUserPrompt (inputText : String) (inputType : String) (context : String) : String :=
  "## User Input (" ++ inputType ++ "):\n" ++ inputText ++
    "\n\n## Repository Context:\n" ++ context ++
    "\n\nAnalyze the user input against the repository context. If multiple PRs or commits are found, compare their technical approaches. Derive and recommend the most robust \"best approach\" for the current issue.\n\nProvide your response as valid JSON."

/-- The templated conversational reply of the fallback (two variants:
with or without at least one PR/commit match). -/
def fallbackConversationalResponse (matchedPRs : List MatchedPR)
    (matchedCommits : List MatchedCommit) : String :=
  let hasSomeMatches := matchedPRs.length > 0 || matchedCommits.length > 0
  let intro := "Hey there! 👋 \n\nI looked through the codebase for anything related to your issue, but I wasn\x27t able to find a definitive match. "
  if hasSomeMatches then
    intro ++ "I did find " ++ toString matchedPRs.length ++
      " potentially related PRs and " ++ toString matchedCommits.length ++
      " commits that might give you some clues.\n\n**What I suggest:**\n- Take a look at the related PRs I\x27ve listed below - they might have patterns that help\n- Check recent commits in the modules where you\x27re seeing this issue\n- Try adding some debug logging to narrow down where things are going wrong\n\nI know it\x27s frustrating when you can\x27t find a clear answer, but you\x27ve got this! Let me know if you\x27d like me to dig deeper into any specific area. 💪"
  else
    intro ++ "This could mean:\n- The issue is new and hasn\x27t been addressed in any previous PRs\n- The relevant code changes haven\x27t been synced yet\n- The issue might be in a different area than where I searched\n\n**Here\x27s what you can try:**\n1. Make sure your repository is fully synced with recent PRs\n2. Search the codebase manually for similar error patterns\n3. Add some debug logging to help pinpoint the issue\n\nDon\x27t give up! Sometimes bugs just need a fresh set of eyes. Let me know if you\x27d like to try a different search approach. 🔍"

/-- Function `buildFallbackAnalysis` from `llmService.ts`: the deterministic
fallback result with `status = 'unknown'`, `confidence = 0.3`, and the
related lists republished verbatim from the matches. -/
def buildFallbackAnalysis (matchedPRs : List MatchedPR)
    (matchedCommits : List MatchedCommit)
    (matchedTickets : List MatchedTicket) : AnalysisResult where
  status := "unknown"
  confidence := 3/10
  summary := "Unable to determine if this issue has been fixed."
  rootCause := "Analysis inconclusive. The error pattern could not be matched to existing code changes."
  explanation := "We analyzed the error but could not find definitive matches in the codebase. This could mean the issue is new or the relevant code changes are not yet indexed."
  conversationalResponse := fallbackConversationalResponse matchedPRs matchedCommits
  relatedPRs := matchedPRs.map (fun pr =>
    { prNumber := pr.prNumber
      title := pr.title
      description := pr.description
      author := pr.author
      url := pr.prUrl
      mergedAt := pr.mergedAt.map isoString
      relevanceScore := pr.similarity
      filesImpacted := pr.filesChanged.map (fun f => f.path)
      filesChanged := pr.filesChanged
      diffContent := pr.diffContent
      labels := pr.labels })
  relatedCommits := matchedCommits.map (fun c =>
    { sha := c.sha
      message := c.message
      author := c.author
      url := c.commitUrl
      committedAt := isoString c.committedAt
      filesChanged := c.filesChanged.map (fun f => f.path) })
  relatedTickets := matchedTickets.map (fun t =>
    { key := t.ticketKey
      title := t.title
      status := t.status
      priority := match t.priority with
        | some p => if p = "" then "medium" else p
        | none => "medium"
      url := t.ticketUrl })
  filesImpacted := []
  diffAnalysis := "No matching diffs available for analysis. The issue may be new or not yet addressed in the codebase."
  bestPractices :=
    ["Add comprehensive error handling",
     "Implement proper input validation",
     "Use defensive coding practices",
     "Add logging for debugging purposes"]
  fixSuggestion := some
    { title := "Investigate Further"
      description := "This issue requires manual investigation as no definitive matches were found."
      steps :=
        ["Search the codebase for similar error patterns",
         "Check recent commits in related modules",
         "Review open issues and PRs for similar reports",
         "Add logging to narrow down the issue location"]
      codeExample := none }

/-- Function `analyzeWithLLM` from `llmService.ts`.  `llm` models the Gemini
invocation applied to the user prompt together with the parsing of its
response (direct JSON parse, then fenced-code-block extraction); any
exception in either step is an `.error`, which the source catches and
answers with `buildFallbackAnalysis`. -/
def analyzeWithLLM (llm : String → Except String AnalysisResult)
    (projectContext : String) (inputText : String) (inputType : String)
    (matchedPRs : List MatchedPR) (matchedCommits : List MatchedCommit)
    (matchedTickets : List MatchedTicket) : AnalysisResult :=
  let context := buildContext matchedPRs matchedCommits matchedTickets projectContext
  let userPrompt := getUserPrompt inputText inputType context
  match llm userPrompt with
  | .ok result => result
  | .error _ => buildFallbackAnalysis matchedPRs matchedCommits matchedTickets

/-! ### Quantity detection in `analyzeError` (`analysisService.ts`) -/

/-- Does one of the (case-insensitive) keyword alternatives of the
regex `(?:prs?|pull requests?|commits?|items?|results?)` match at the
front of the remaining text?  The optional trailing `s` makes the
stem alone sufficient for a match. -/
def keywordAhead (l : List Char) : Bool :=
  let low := l.map Char.toLower
  (["pr", "pull request", "commit", "item", "result"].map String.data).any
    (fun k => k.isPrefixOf low)

/-- Numeric value of a digit run (`parseInt` on the captured group). -/
def digitsToNat (ds : List Char) : ℕ :=
  ds.foldl (fun n c => n * 10 + (c.toNat - 48)) 0

/-- Leftmost match of `/(\d+)\s*(?:prs?|pull requests?|commits?|items?|results?)/i`
returning the captured number: the scan tries each position left to
right; at a digit it takes the maximal digit run (shorter runs cannot
match, since the next character would be a digit and no keyword starts
with one), skips whitespace, and checks for a keyword. -/
def detectQuantity : List Char → Option ℕ
  | [] => none
  | c :: rest =>
    if c.isDigit then
      let run := (c :: rest).takeWhile Char.isDigit
      let after := (c :: rest).dropWhile Char.isDigit
      if keywordAhead (after.dropWhile Char.isWhitespace) then
        some (digitsToNat run)
      else detectQuantity rest
    else detectQuantity rest

/-- The limit used by `analyzeError` (`analysisService.ts`): default
10; when the quantity regex matches and the parsed number is in
`(0, 50]` it overrides the default, otherwise the default stays. -/
def analysisLimit (inputText : String) : ℕ :=
  match detectQuantity inputText.data with
  | some requestedLimit =>
    if requestedLimit > 0 ∧ requestedLimit ≤ 50 then requestedLimit else 10
  | none => 10

/-- The three parallel similarity searches of `analyzeError`, with the
limit override applied (`searchSimilarPRs(q, 0.3, limit)`,
`searchSimilarCommits(q, 0.3, limit)`,
`searchSimilarTickets(q, 0.3, Math.min(limit, 10))`). -/
def analyzeErrorSearches (sq : ℚ → ℚ) (prDb commitDb ticketDb : List (Doc α))
    (queryEmbedding : List ℚ) (inputText : String) :
    Except String (List (Doc α × ℚ) × List (Doc α × ℚ) × List (Doc α × ℚ)) :=
  let limit := analysisLimit inputText
  match searchSimilarPRs sq prDb queryEmbedding (3/10) limit with
  | .error e => .error e
  | .ok prs =>
    match searchSimilarCommits sq commitDb queryEmbedding (3/10) limit with
    | .error e => .error e
    | .ok commits =>
      match searchSimilarTickets sq ticketDb queryEmbedding (3/10) (min limit 10) with
      | .error e => .error e
      | .ok tickets => .ok (prs, commits, tickets)

/-! ### PR sync (`githubService.ts`, `syncRepoPRs`) -/

/-- Structure `GitHubPRFromAPI`: one PR as returned by the paginated GitHub
listing. -/
structure RemotePR where
  number : ℕ
  title : String
  body : Option String := none
  html_url : String
  state : String
  merged_at : Option Millis := none
  userLogin : String
  labels : List String := []
  created_at : Millis
  updated_at : Millis
deriving DecidableEq, Repr

/-- One entry of the changed-files fetch (`fetchPRFiles`). -/
structure PRFileEntry where
  filename : String
  additions : ℕ
  deletions : ℕ
  status : String
  patch : Option String := none
deriving DecidableEq, Repr

/-- The persisted `GitHubPR` document (the fields the sync loop reads
and writes). -/
structure PersistedPR where
  prNumber : ℕ
  repoUrl : String
  title : String
  description : Option String := none
  author : String
  prUrl : String
  mergedAt : Option Millis := none
  state : String
  filesChanged : List FileChangeM := []
  diffContent : Option String := none
  embedding : List ℚ := []
  updatedAt : Option Millis := none
deriving DecidableEq, Repr

/-- Structure `PRIngestionData` from `githubService.ts`. -/
structure PRIngestionData where
  prNumber : ℕ
  title : String
  description : Option String := none
  author : String
  repoUrl : String
  prUrl : String
  mergedAt : Option Millis := none
  filesChanged : List FileChangeM := []
  diffContent : Option String := none
deriving DecidableEq, Repr

/-- The searchable text composed by `ingestPR` (`[header, description,
author, files, diff].filter(Boolean).join('\n')`). -/
def ingestSearchText (data : PRIngestionData) : String :=
  let parts := ["PR #" ++ toString data.prNumber ++ ": " ++ data.title,
    data.description.getD "",
    "Author: " ++ data.author,
    joinSep ", " (data.filesChanged.map (fun f => f.path)),
    data.diffContent.getD ""]
  joinSep "\n" (parts.filter (fun p => p ≠ ""))

/-- Function `ingestPR` from `githubService.ts` as a store transformer: upsert
by `(prNumber, repoUrl)`, writing all ingestion fields plus
`state` (`merged` when a merge timestamp is present, else `open`), a
fresh embedding over the searchable text, and `updatedAt := now`. -/
def ingestPR (embedFn : String → List ℚ) (now : Millis)
    (data : PRIngestionData) (db : List PersistedPR) : List PersistedPR :=
  let newRec : PersistedPR :=
    { prNumber := data.prNumber
      repoUrl := data.repoUrl
      title := data.title
      description := data.description
      author := data.author
      prUrl := data.prUrl
      mergedAt := data.mergedAt
      state := if data.mergedAt.isSome then "merged" else "open"
      filesChanged := data.filesChanged
      diffContent := data.diffContent
      embedding := embedFn (ingestSearchText data)
      updatedAt := some now }
  if db.any (fun r => r.prNumber == data.prNumber && r.repoUrl == data.repoUrl) then
    db.map (fun r =>
      if r.prNumber == data.prNumber && r.repoUrl == data.repoUrl then newRec else r)
  else
    db ++ [newRec]

/-- Concatenate the per-file patches into one diff blob
(`files.filter(f => f.patch).map(...).join('\n\n').slice(0, 8000)`). -/
def buildDiffContent (files : List PRFileEntry) : String :=
  (joinSep "\n\n"
    ((files.filter (fun f => match f.patch with
        | some p => p ≠ ""
        | none => false)).map
      (fun f => "File: " ++ f.filename ++ "\n" ++ f.patch.getD ""))).take 8000

/-- The collaborators `syncRepoPRs` talks to: the paginated remote
listing, the per-PR changed-files fetch, the embedding capability, and
the clock used for `updatedAt`. -/
structure SyncEnv where
  fetchPage : ℕ → List RemotePR
  fetchFiles : ℕ → List PRFileEntry
  embedFn : String → List ℚ
  now : Millis
  owner : String
  repo : String

/-- The repo URL under which sync records are keyed. -/
def SyncEnv.repoUrl (env : SyncEnv) : String :=
  "https://github.com/" ++ env.owner ++ "/" ++ env.repo

/-- The mutable state of one sync run.  `inspected` and `filesFetched`
instrument the remote interactions the source performs: `inspected`
records every PR whose per-PR body ran (i.e. was looked up and
classified), `filesFetched` every PR for which `fetchPRFiles` was
called. -/
structure SyncSt where
  db : List PersistedPR
  processed : ℕ := 0
  updated : ℕ := 0
  skipped : ℕ := 0
  errors : List String := []
  inspected : List ℕ := []
  filesFetched : List ℕ := []
deriving DecidableEq, Repr

/-- Model of `GitHubPR.findOne({ prNumber, repoUrl })`. -/
def findExisting (db : List PersistedPR) (n : ℕ) (url : String) : Option PersistedPR :=
  db.find? (fun r => r.prNumber == n && r.repoUrl == url)

/-- The `needsUpdate` predicate of the sync loop: no existing record,
or the remote `updated_at` is strictly newer than the persisted
`updatedAt` (which must be present, per the `existing.updatedAt &&`
guard), or the remote reports a merge timestamp while the persisted
state is not already `merged`. -/
def needsUpdateB (existing : Option PersistedPR) (pr : RemotePR) : Bool :=
  match existing with
  | none => true
  | some ex =>
    (match ex.updatedAt with
      | some t => decide (t < pr.updated_at)
      | none => false)
    || (pr.merged_at.isSome && ex.state != "merged")

/-- The per-PR body of the sync loop (the part after the limit check):
look up the existing record; if it exists and does not need an update,
increment `skipped` (second component `true` = counted into
`pageSkipped`); otherwise fetch the changed files, build the diff blob,
ingest, and increment `updated` (prior record existed) or `processed`
(new record). -/
def syncStep (env : SyncEnv) (st : SyncSt) (pr : RemotePR) : SyncSt × Bool :=
  let st := { st with inspected := st.inspected ++ [pr.number] }
  let existing := findExisting st.db pr.number env.repoUrl
  let needsUpdate := needsUpdateB existing pr
  if existing.isSome && !needsUpdate then
    ({ st with skipped := st.skipped + 1 }, true)
  else
    let isUpdate := existing.isSome && needsUpdate
    let files := env.fetchFiles pr.number
    let st := { st with filesFetched := st.filesFetched ++ [pr.number] }
    let diffContent := buildDiffContent files
    let ingestionData : PRIngestionData :=
      { prNumber := pr.number
        title := pr.title
        description := some (pr.body.getD "")
        author := pr.userLogin
        repoUrl := env.repoUrl
        prUrl := pr.html_url
        mergedAt := pr.merged_at
        filesChanged := files.map (fun f =>
          { path := f.filename
            additions := some f.additions
            deletions := some f.deletions })
        diffContent := some diffContent }
    let st := { st with db := ingestPR env.embedFn env.now ingestionData st.db }
    if isUpdate then ({ st with updated := st.updated + 1 }, false)
    else ({ st with processed := st.processed + 1 }, false)

/-- The inner `for (const pr of prs)` loop: before each PR the limit
budget is checked against `processed + skipped` (only when not in
fetch-all mode); third component `true` means the loop broke on the
budget (`keepFetching = false`).  Second component is `pageSkipped`. -/
def runPRs (env : SyncEnv) (fetchAll : Bool) (limit : ℕ) :
    List RemotePR → SyncSt → ℕ → SyncSt × ℕ × Bool
  | [], st, pageSkipped => (st, pageSkipped, false)
  | pr :: rest, st, pageSkipped =>
    if !fetchAll && limit ≤ st.processed + st.skipped then (st, pageSkipped, true)
    else
      let r := syncStep env st pr
      runPRs env fetchAll limit rest r.1 (if r.2 then pageSkipped + 1 else pageSkipped)

/-- Trace of one remote page fetch: the page number, how many PRs the
page held, and how many of them the inner loop classified as skip. -/
structure PageTrace where
  page : ℕ
  count : ℕ
  pageSkipped : ℕ
deriving DecidableEq, Repr

/-- The outer `while (keepFetching)` loop of `syncRepoPRs`, with fuel
for termination (the wrapper passes enough for any finite remote).
After each non-empty page: stop flagging `stoppedEarly` when the whole
page was skipped; stop quietly when the budget broke the inner loop or
the page was short (fewer than 100 items); otherwise fetch the next
page.  Returns final state, the trace of fetched pages, and the
`stoppedEarly` flag. -/
def runPages (env : SyncEnv) (fetchAll : Bool) (limit : ℕ) :
    ℕ → ℕ → SyncSt → SyncSt × List PageTrace × Bool
  | 0, _, st => (st, [], false)
  | fuel + 1, page, st =>
    let prs := env.fetchPage page
    if prs.length = 0 then (st, [⟨page, 0, 0⟩], false)
    else
      let r := runPRs env fetchAll limit prs st 0
      let t : PageTrace := ⟨page, prs.length, r.2.1⟩
      if r.2.1 = prs.length ∧ prs.length > 0 then (r.1, [t], true)
      else if r.2.2 then (r.1, [t], false)
      else if prs.length < 100 then (r.1, [t], false)
      else
        let next := runPages env fetchAll limit fuel (page + 1) r.1
        (next.1, t :: next.2.1, next.2.2)

/-- The result record of `syncRepoPRs`, extended with the
instrumentation fields of the model (final store, inspected PRs,
file-fetch calls, page trace). -/
structure SyncOutcome where
  processed : ℕ
  updated : ℕ
  skipped : ℕ
  errors : List String
  stoppedEarly : Bool
  message : String
  db : List PersistedPR
  inspected : List ℕ
  filesFetched : List ℕ
  pages : List PageTrace
deriving DecidableEq, Repr

/-- Function `syncRepoPRs` from `githubService.ts`: run the page loop starting
at page 1 (`limit = 0` means fetch-all) over the initial store `db`,
then build the human-readable summary message. -/
def syncRepoPRs (env : SyncEnv) (limit : ℕ) (db : List PersistedPR)
    (fuel : ℕ) : SyncOutcome :=
  let fetchAll := limit == 0
  let r := runPages env fetchAll limit fuel 1 { db := db }
  let st := r.1
  let stoppedEarly := r.2.2
  let nProcessed := toString st.processed
  let nUpdated := toString st.updated
  let nSkipped := toString st.skipped
  let message :=
    if st.processed + st.updated = 0 ∧ st.skipped > 0 then
      "All " ++ nSkipped ++ " PRs are already synced and up-to-date. No new or updated PRs to process."
    else if stoppedEarly then
      "Synced " ++ nProcessed ++ " new PRs, updated " ++ nUpdated ++
        " PRs, skipped " ++ nSkipped ++ " already synced. Stopped early as remaining PRs are already synced."
    else
      "Synced " ++ nProcessed ++ " new PRs, updated " ++ nUpdated ++
        " PRs, skipped " ++ nSkipped ++ " unchanged."
  { processed := st.processed
    updated := st.updated
    skipped := st.skipped
    errors := st.errors
    stoppedEarly := stoppedEarly
    message := message
    db := st.db
    inspected := st.inspected
    filesFetched := st.filesFetched
    pages := r.2.1 }

/-! ### Concrete sample data used by the witness theorems -/

/-- A remote PR as the listing returns it (updated at 50, not
merged). -/
def wRemotePR (n : ℕ) : RemotePR :=
  { number := n, title := "t", html_url := "u", state := "open",
    userLogin := "a", created_at := 0, updated_at := 50 }

/-- A persisted record for `wRemotePR n` in state `merged`, updated at
90 (newer than the remote). -/
def wMergedRec (n : ℕ) : PersistedPR :=
  { prNumber := n, repoUrl := "https://github.com/o/r", title := "t",
    author := "a", prUrl := "u", state := "merged", updatedAt := some 90 }

/-- A persisted record for `wRemotePR n` in state `open`, updated at 10
(older than the remote, so it needs an update). -/
def wStaleRec (n : ℕ) : PersistedPR :=
  { prNumber := n, repoUrl := "https://github.com/o/r", title := "t",
    author := "a", prUrl := "u", state := "open", updatedAt := some 10 }

/-- A sync environment over `o/r` with the given remote pages, no
changed files, and a trivial embedder. -/
def wEnv (pages : ℕ → List RemotePR) : SyncEnv :=
  { fetchPage := pages, fetchFiles := fun _ => [], embedFn := fun _ => [],
    now := 100, owner := "o", repo := "r" }

/-- Remote with one page of three PRs. -/
def envThree : SyncEnv := wEnv (fun p => if p = 1 then (List.range 3).map wRemotePR else [])

/-- Store where those three PRs are all merged and up to date. -/
def dbThreeMerged : List PersistedPR := (List.range 3).map wMergedRec

/-- Remote with one page of six PRs. -/
def envSix : SyncEnv := wEnv (fun p => if p = 1 then (List.range 6).map wRemotePR else [])

/-- Store where those six PRs all exist but are stale (every one is
classified as an update). -/
def dbSixStale : List PersistedPR := (List.range 6).map wStaleRec

/-- Remote with one page of eight PRs (all new relative to an empty
store). -/
def envEight : SyncEnv := wEnv (fun p => if p = 1 then (List.range 8).map wRemotePR else [])

/-- A matched PR at similarity 0.82 with a short diff. -/
def samplePR : MatchedPR :=
  { prNumber := 42, title := "Fix password reset token expiry",
    description := some "d", author := "alice", prUrl := "http://pr",
    mergedAt := some 5, filesChanged := [{ path := "src/auth.ts" }],
    similarity := 41/50, diffContent := some "diff body", labels := some ["bug"] }

/-- A matched commit. -/
def sampleCommit : MatchedCommit :=
  { sha := "abcdef0123", message := "fix", author := "bob",
    commitUrl := "http://c", committedAt := 7,
    filesChanged := [{ path := "src/a.ts" }], similarity := 1/2 }

/-- A matched ticket. -/
def sampleTicket : MatchedTicket :=
  { ticketKey := "CRM-1", title := "Login broken", status := "Done",
    priority := some "High", ticketUrl := "http://t", similarity := 2/5 }

/-- Candidate with a one-dimensional embedding. -/
def wDocGood : Doc ℕ := ⟨1, [1]⟩

/-- Candidate with an empty embedding (filtered out before
comparison). -/
def wDocEmpty : Doc ℕ := ⟨2, []⟩

/-- Candidate with a two-dimensional embedding (dimension mismatch
against the query `[1]`). -/
def wDocBad : Doc ℕ := ⟨3, [1, 2]⟩

/-! ## Theorems -/

/-- C4: in `syncRepoPRs`, a PR whose persisted record exists with
`updatedAt` at least the remote `updated_at` and state already
`merged` is classified as skip: the per-PR step only records the
inspection and increments `skipped` — the store, the `filesFetched`
trace (no changed-files/diff fetch) and the other counters are
untouched. -/
theorem syncStep_skip_upToDate_merged (env : SyncEnv) (st : SyncSt)
    (pr : RemotePR) (rec : PersistedPR) (t : Millis)
    (hfind : findExisting st.db pr.number env.repoUrl = some rec)
    (hupd : rec.updatedAt = some t)
    (hle : pr.updated_at ≤ t)
    (hmerged : rec.state = "merged") :
    syncStep env st pr =
      ({ st with inspected := st.inspected ++ [pr.number],
                 skipped := st.skipped + 1 }, true) := by
  have hnu : needsUpdateB (some rec) pr = false := by
    simp only [needsUpdateB, hupd, hmerged]
    simp [not_lt.mpr hle]
  unfold syncStep
  simp only [hfind, hnu, Option.isSome_some, Bool.not_false, Bool.and_self, if_true]

/-- Witness for C4 at a concrete store and remote PR. -/
theorem syncStep_skip_upToDate_merged_witness :
    syncStep envThree { db := dbThreeMerged } (wRemotePR 1) =
      ({ db := dbThreeMerged, inspected := [1], skipped := 1 }, true) :=
  syncStep_skip_upToDate_merged envThree { db := dbThreeMerged } (wRemotePR 1)
    (wMergedRec 1) 90 (by decide) rfl (by decide) rfl

/-- C8 (counterexample): the parsed quantity is not capped to 50 — on
the input "100 PRs" the regex captures 100, but the out-of-range value
is rejected and the default limit 10 is used, not 50. -/
theorem analysisLimit_not_capped :
    detectQuantity ("100 PRs".data) = some 100 ∧
    analysisLimit "100 PRs" = 10 ∧ analysisLimit "100 PRs" ≠ 50 :=
  ⟨by decide, by decide, by decide⟩

/-- C8 (amended): when the quantity pattern matches with value `n`, the
search limit override is `n` exactly when `0 < n ≤ 50`; an
out-of-range `n` leaves the default limit 10 in place (no capping). -/
theorem analysisLimit_override (s : String) (n : ℕ)
    (h : detectQuantity s.data = some n) :
    analysisLimit s = if n > 0 ∧ n ≤ 50 then n else 10 := by
  unfold analysisLimit
  rw [h]

/-- Witness for C8 (amended) on the input "5 PRs". -/
theorem analysisLimit_override_witness :
    detectQuantity ("5 PRs".data) = some 5 ∧
    analysisLimit "5 PRs" = if 5 > 0 ∧ 5 ≤ 50 then 5 else 10 :=
  ⟨by decide, analysisLimit_override "5 PRs" 5 (by decide)⟩

/-- C2 (counterexample): with `limit = 5` and six remote PRs that all
exist in stale form (each classified as an update), all six PRs are
inspected — more than the limit — because updated PRs do not count
against the `processed + skipped` budget. -/
theorem syncRepoPRs_limit_counterexample :
    (syncRepoPRs envSix 5 dbSixStale 10).inspected.length = 6 ∧
    5 < (syncRepoPRs envSix 5 dbSixStale 10).inspected.length ∧
    (syncRepoPRs envSix 5 dbSixStale 10).updated = 6 ∧
    (syncRepoPRs envSix 5 dbSixStale 10).processed = 0 ∧
    (syncRepoPRs envSix 5 dbSixStale 10).skipped = 0 :=
  ⟨by decide, by decide, by decide, by decide, by decide⟩

/-- Counter bookkeeping of one per-PR step: `processed + skipped` grows
by at most one, `inspected` by exactly one, and exactly one of the
three counters is incremented. -/
theorem syncStep_counters (env : SyncEnv) (st : SyncSt) (pr : RemotePR) :
    ((syncStep env st pr).1.processed + (syncStep env st pr).1.skipped
      ≤ st.processed + st.skipped + 1) ∧
    ((syncStep env st pr).1.inspected.length = st.inspected.length + 1) ∧
    ((syncStep env st pr).1.processed + (syncStep env st pr).1.updated +
        (syncStep env st pr).1.skipped
      = st.processed + st.updated + st.skipped + 1) := by
  unfold syncStep
  dsimp only
  split
  · exact ⟨by simp; try omega, by simp, by simp; try omega⟩
  · split <;> exact ⟨by simp; try omega, by simp, by simp; try omega⟩

/-- The inner loop keeps `processed + skipped` within the limit when
not in fetch-all mode. -/
theorem runPRs_budget (env : SyncEnv) (limit : ℕ) (prs : List RemotePR) :
    ∀ st k, st.processed + st.skipped ≤ limit →
    (runPRs env false limit prs st k).1.processed +
      (runPRs env false limit prs st k).1.skipped ≤ limit := by
  induction prs with
  | nil => intro st k h; simpa [runPRs] using h
  | cons pr rest ih =>
    intro st k h
    unfold runPRs
    by_cases hc : limit ≤ st.processed + st.skipped
    · simpa [hc] using h
    · simp only [hc, Bool.not_false, Bool.true_and, decide_eq_true_eq, if_neg,
        decide_eq_false_iff_not, not_false_eq_true]
      have hlt : st.processed + st.skipped < limit := not_le.mp hc
      have hstep := (syncStep_counters env st pr).1
      exact ih _ _ (by omega)

/-- The inner loop preserves the invariant that `inspected` counts the
sum of the three counters. -/
theorem runPRs_counts (env : SyncEnv) (fa : Bool) (limit : ℕ) (prs : List RemotePR) :
    ∀ st k, st.inspected.length = st.processed + st.updated + st.skipped →
    (runPRs env fa limit prs st k).1.inspected.length =
      (runPRs env fa limit prs st k).1.processed +
      (runPRs env fa limit prs st k).1.updated +
      (runPRs env fa limit prs st k).1.skipped := by
  induction prs with
  | nil => intro st k h; simpa [runPRs] using h
  | cons pr rest ih =>
    intro st k h
    unfold runPRs
    by_cases hc : (!fa && decide (limit ≤ st.processed + st.skipped)) = true
    · simpa [hc] using h
    · simp only [Bool.not_eq_true] at hc
      simp only [hc, if_false]
      have hstep := (syncStep_counters env st pr).2
      exact ih _ _ (by omega)

/-- The page loop keeps `processed + skipped` within the limit when not
in fetch-all mode. -/
theorem runPages_budget (env : SyncEnv) (limit : ℕ) :
    ∀ fuel page st, st.processed + st.skipped ≤ limit →
    (runPages env false limit fuel page st).1.processed +
      (runPages env false limit fuel page st).1.skipped ≤ limit := by
  intro fuel
  induction fuel with
  | zero => intro page st h; simpa [runPages] using h
  | succ fuel ih =>
    intro page st h
    unfold runPages
    by_cases h0 : (env.fetchPage page).length = 0
    · simpa [h0] using h
    · simp only [h0, if_false, if_neg]
      have hr := runPRs_budget env limit (env.fetchPage page) st 0 h
      split
      · exact hr
      · split
        · exact hr
        · split
          · exact hr
          · exact ih _ _ hr

/-- The page loop preserves the `inspected` counting invariant. -/
theorem runPages_counts (env : SyncEnv) (fa : Bool) (limit : ℕ) :
    ∀ fuel page st, st.inspected.length = st.processed + st.updated + st.skipped →
    (runPages env fa limit fuel page st).1.inspected.length =
      (runPages env fa limit fuel page st).1.processed +
      (runPages env fa limit fuel page st).1.updated +
      (runPages env fa limit fuel page st).1.skipped := by
  intro fuel
  induction fuel with
  | zero => intro page st h; simpa [runPages] using h
  | succ fuel ih =>
    intro page st h
    unfold runPages
    by_cases h0 : (env.fetchPage page).length = 0
    · simpa [h0] using h
    · simp only [h0, if_false, if_neg]
      have hr := runPRs_counts env fa limit (env.fetchPage page) st 0 h
      split
      · exact hr
      · split
        · exact hr
        · split
          · exact hr
          · exact ih _ _ hr

/-- C2 (amended): with a positive limit, `syncRepoPRs` stops charging
the budget exactly at `processed + skipped = limit`, so the final
`processed + skipped` never exceeds the limit; the number of PRs
actually inspected equals `processed + updated + skipped` — skipped
and newly-written PRs count against the limit, but PRs classified as
updates do not, so more than `limit` PRs can be inspected when updates
occur (see the counterexample). -/
theorem syncRepoPRs_budget (env : SyncEnv) (limit : ℕ) (db : List PersistedPR)
    (fuel : ℕ) (h : 0 < limit) :
    (syncRepoPRs env limit db fuel).processed +
      (syncRepoPRs env limit db fuel).skipped ≤ limit ∧
    (syncRepoPRs env limit db fuel).inspected.length =
      (syncRepoPRs env limit db fuel).processed +
      (syncRepoPRs env limit db fuel).updated +
      (syncRepoPRs env limit db fuel).skipped := by
  have hfa : (limit == 0) = false := by
    simp [Nat.pos_iff_ne_zero.mp h]
  constructor
  · have hb := runPages_budget env limit fuel 1 { db := db } (by simp)
    simpa [syncRepoPRs, hfa] using hb
  · have hcnt := runPages_counts env (limit == 0) limit fuel 1 { db := db } (by simp)
    simpa [syncRepoPRs] using hcnt

/-- Witness for C2 (amended): eight new remote PRs under limit 5. -/
theorem syncRepoPRs_budget_witness :
    (syncRepoPRs envEight 5 [] 10).processed +
      (syncRepoPRs envEight 5 [] 10).skipped ≤ 5 ∧
    (syncRepoPRs envEight 5 [] 10).inspected.length =
      (syncRepoPRs envEight 5 [] 10).processed +
      (syncRepoPRs envEight 5 [] 10).updated +
      (syncRepoPRs envEight 5 [] 10).skipped :=
  syncRepoPRs_budget envEight 5 [] 10 (by decide)

/-- Projection of the outcome record: the page trace comes straight
from the page loop. -/
theorem syncRepoPRs_pages_def (env : SyncEnv) (limit : ℕ) (db : List PersistedPR)
    (fuel : ℕ) :
    (syncRepoPRs env limit db fuel).pages =
      (runPages env (limit == 0) limit fuel 1 { db := db }).2.1 := rfl

/-- Projection of the outcome record: the early-stop flag comes
straight from the page loop. -/
theorem syncRepoPRs_stoppedEarly_def (env : SyncEnv) (limit : ℕ)
    (db : List PersistedPR) (fuel : ℕ) :
    (syncRepoPRs env limit db fuel).stoppedEarly =
      (runPages env (limit == 0) limit fuel 1 { db := db }).2.2 := rfl

/-- In the page loop, a fully-skipped non-empty page ends the run: the
loop reports `stoppedEarly` and that page is the last fetch in the
trace. -/
theorem runPages_earlyStop (env : SyncEnv) (fa : Bool) (limit : ℕ) :
    ∀ fuel page st (e : PageTrace),
    e ∈ (runPages env fa limit fuel page st).2.1 →
    e.count ≠ 0 → e.pageSkipped = e.count →
    (runPages env fa limit fuel page st).2.2 = true ∧
    ∃ pre, (runPages env fa limit fuel page st).2.1 = pre ++ [e] := by
  intro fuel
  induction fuel with
  | zero => intro page st e he _ _; simp [runPages] at he
  | succ fuel ih =>
    intro page st e he hc hk
    unfold runPages at he ⊢
    by_cases h0 : (env.fetchPage page).length = 0
    · simp only [h0, if_true, List.mem_singleton] at he
      rw [he] at hc
      exact absurd rfl hc
    · simp only [h0, if_false, if_neg, not_false_eq_true] at he ⊢
      by_cases hstop : (runPRs env fa limit (env.fetchPage page) st 0).2.1 =
          (env.fetchPage page).length ∧ (env.fetchPage page).length > 0
      · simp only [hstop, if_pos, and_self, List.mem_singleton] at he ⊢
        subst he
        exact ⟨by trivial, [], (List.nil_append _).symm⟩
      · simp only [if_neg hstop] at he ⊢
        have hcontra : e = (⟨page, (env.fetchPage page).length,
            (runPRs env fa limit (env.fetchPage page) st 0).2.1⟩ : PageTrace) → False := by
          intro heq
          apply hstop
          constructor
          · rw [heq] at hk
            simpa using hk
          · rw [heq] at hc
            exact Nat.pos_of_ne_zero (by simpa using hc)
        by_cases hlim : (runPRs env fa limit (env.fetchPage page) st 0).2.2 = true
        · simp only [hlim, if_true, List.mem_singleton] at he
          exact absurd he hcontra
        · simp only [Bool.not_eq_true] at hlim
          simp only [hlim, Bool.false_eq_true, if_false] at he ⊢
          by_cases hshort : (env.fetchPage page).length < 100
          · simp only [hshort, if_true, List.mem_singleton] at he
            exact absurd he hcontra
          · simp only [hshort, if_false] at he ⊢
            rcases List.mem_cons.mp he with he1 | he2
            · exact absurd he1 hcontra
            · obtain ⟨hse, pre, hpre⟩ := ih (page + 1)
                (runPRs env fa limit (env.fetchPage page) st 0).1 e he2 hc hk
              refine ⟨hse, ⟨page, (env.fetchPage page).length,
                (runPRs env fa limit (env.fetchPage page) st 0).2.1⟩ :: pre, ?_⟩
              rw [List.cons_append, hpre]

/-- C3: whenever a fetched page is non-empty and every PR on it was
classified as skip (`pageSkipped` equals the page length), the sync
loop terminates with `stoppedEarly = true` and that page is the last
page fetched from the remote. -/
theorem syncRepoPRs_earlyStop (env : SyncEnv) (limit : ℕ) (db : List PersistedPR)
    (fuel : ℕ) (e : PageTrace)
    (he : e ∈ (syncRepoPRs env limit db fuel).pages)
    (hc : e.count ≠ 0) (hk : e.pageSkipped = e.count) :
    (syncRepoPRs env limit db fuel).stoppedEarly = true ∧
    ∃ pre, (syncRepoPRs env limit db fuel).pages = pre ++ [e] := by
  rw [syncRepoPRs_pages_def] at he ⊢
  rw [syncRepoPRs_stoppedEarly_def]
  exact runPages_earlyStop env (limit == 0) limit fuel 1 { db := db } e he hc hk

/-- Witness for C3: three remote PRs, all already merged and up to
date, so the single fetched page is fully skipped. -/
theorem syncRepoPRs_earlyStop_witness :
    (syncRepoPRs envThree 0 dbThreeMerged 10).stoppedEarly = true ∧
    ∃ pre, (syncRepoPRs envThree 0 dbThreeMerged 10).pages =
      pre ++ [⟨1, 3, 3⟩] :=
  syncRepoPRs_earlyStop envThree 0 dbThreeMerged 10 ⟨1, 3, 3⟩
    (by decide) (by decide) (by decide)

/-- C1: when the model invocation / response parsing step throws,
`analyzeWithLLM` still returns a result — the deterministic fallback —
with `status = 'unknown'`, `confidence = 0.3`, and
`relatedPRs`/`relatedCommits`/`relatedTickets` built element-for-element
from the matched inputs (each related PR carrying `relevanceScore`
equal to that match's similarity); in particular each list is non-empty
whenever the corresponding input list is. -/
theorem analyzeWithLLM_fallback (llm : String → Except String AnalysisResult)
    (projectContext inputText inputType : String)
    (matchedPRs : List MatchedPR) (matchedCommits : List MatchedCommit)
    (matchedTickets : List MatchedTicket) (e : String)
    (h : llm (getUserPrompt inputText inputType
      (buildContext matchedPRs matchedCommits matchedTickets projectContext)) =
      .error e) :
    (analyzeWithLLM llm projectContext inputText inputType
        matchedPRs matchedCommits matchedTickets).status = "unknown" ∧
    (analyzeWithLLM llm projectContext inputText inputType
        matchedPRs matchedCommits matchedTickets).confidence = 3/10 ∧
    (analyzeWithLLM llm projectContext inputText inputType
        matchedPRs matchedCommits matchedTickets).relatedPRs.length = matchedPRs.length ∧
    (analyzeWithLLM llm projectContext inputText inputType
        matchedPRs matchedCommits matchedTickets).relatedCommits.length = matchedCommits.length ∧
    (analyzeWithLLM llm projectContext inputText inputType
        matchedPRs matchedCommits matchedTickets).relatedTickets.length = matchedTickets.length ∧
    (analyzeWithLLM llm projectContext inputText inputType
        matchedPRs matchedCommits matchedTickets).relatedPRs.map (fun p => p.relevanceScore) =
      matchedPRs.map (fun p => p.similarity) ∧
    (analyzeWithLLM llm projectContext inputText inputType
        matchedPRs matchedCommits matchedTickets).relatedPRs.map (fun p => p.prNumber) =
      matchedPRs.map (fun p => p.prNumber) ∧
    (analyzeWithLLM llm projectContext inputText inputType
        matchedPRs matchedCommits matchedTickets).relatedCommits.map (fun c => c.sha) =
      matchedCommits.map (fun c => c.sha) ∧
    (analyzeWithLLM llm projectContext inputText inputType
        matchedPRs matchedCommits matchedTickets).relatedTickets.map (fun t => t.key) =
      matchedTickets.map (fun t => t.ticketKey) ∧
    (matchedPRs ≠ [] → (analyzeWithLLM llm projectContext inputText inputType
        matchedPRs matchedCommits matchedTickets).relatedPRs ≠ []) ∧
    (matchedCommits ≠ [] → (analyzeWithLLM llm projectContext inputText inputType
        matchedPRs matchedCommits matchedTickets).relatedCommits ≠ []) ∧
    (matchedTickets ≠ [] → (analyzeWithLLM llm projectContext inputText inputType
        matchedPRs matchedCommits matchedTickets).relatedTickets ≠ []) := by
  have hfb : analyzeWithLLM llm projectContext inputText inputType
      matchedPRs matchedCommits matchedTickets =
      buildFallbackAnalysis matchedPRs matchedCommits matchedTickets := by
    simp only [analyzeWithLLM]
    rw [h]
  rw [hfb]
  refine ⟨rfl, rfl, by simp [buildFallbackAnalysis], by simp [buildFallbackAnalysis],
    by simp [buildFallbackAnalysis], ?_, ?_, ?_, ?_, ?_, ?_, ?_⟩
  · show (matchedPRs.map _).map _ = _
    rw [List.map_map]
    rfl
  · show (matchedPRs.map _).map _ = _
    rw [List.map_map]
    rfl
  · show (matchedCommits.map _).map _ = _
    rw [List.map_map]
    rfl
  · show (matchedTickets.map _).map _ = _
    rw [List.map_map]
    rfl
  · intro hne
    simpa [buildFallbackAnalysis] using hne
  · intro hne
    simpa [buildFallbackAnalysis] using hne
  · intro hne
    simpa [buildFallbackAnalysis] using hne

/-- Witness for C1: a throwing model invocation over one matched PR,
commit and ticket. -/
theorem analyzeWithLLM_fallback_witness :
    (analyzeWithLLM (fun _ => .error "boom") "" "login fails" "error"
        [samplePR] [sampleCommit] [sampleTicket]).status = "unknown" ∧
    (analyzeWithLLM (fun _ => .error "boom") "" "login fails" "error"
        [samplePR] [sampleCommit] [sampleTicket]).confidence = 3/10 ∧
    (analyzeWithLLM (fun _ => .error "boom") "" "login fails" "error"
        [samplePR] [sampleCommit] [sampleTicket]).relatedPRs.map (fun p => p.relevanceScore) =
      [samplePR].map (fun p => p.similarity) ∧
    (analyzeWithLLM (fun _ => .error "boom") "" "login fails" "error"
        [samplePR] [sampleCommit] [sampleTicket]).relatedPRs ≠ [] := by
  obtain ⟨h1, h2, _, _, _, h6, _, _, _, h10, _, _⟩ :=
    analyzeWithLLM_fallback (fun _ => .error "boom") "" "login fails" "error"
      [samplePR] [sampleCommit] [sampleTicket] "boom" rfl
  exact ⟨h1, h2, h6, h10 (by simp)⟩

/-- Every element of a joined list occurs contiguously in the joined
string. -/
theorem joinSep_mem_split (sep : String) :
    ∀ (l : List String), ∀ x ∈ l, ∃ pre post, joinSep sep l = pre ++ x ++ post := by
  intro l
  induction l with
  | nil => intro x hx; simp at hx
  | cons y t ih =>
    intro x hx
    cases t with
    | nil =>
      rw [List.mem_singleton.mp hx]
      exact ⟨"", "", by simp [joinSep]⟩
    | cons z t2 =>
      rcases List.mem_cons.mp hx with h1 | h2
      · subst h1
        refine ⟨"", sep ++ joinSep sep (z :: t2), ?_⟩
        simp [joinSep, String.append_assoc]
      · obtain ⟨pre, post, hpp⟩ := ih x h2
        refine ⟨y ++ sep ++ pre, post, ?_⟩
        simp only [joinSep, hpp, String.append_assoc]

/-- C9: in `buildContext`, each matched PR contributes its block to the
assembled context; the block carries a diff excerpt — the first 2000
characters of the diff plus a truncation marker when longer — only
when the PR's similarity is at least 0.4, and a PR below 0.4
contributes its base info with no diff excerpt. -/
theorem buildContext_diff_gate (matchedPRs : List MatchedPR)
    (matchedCommits : List MatchedCommit) (matchedTickets : List MatchedTicket)
    (pc : String) (pr : MatchedPR) (h : pr ∈ matchedPRs) :
    (∃ pre post, buildContext matchedPRs matchedCommits matchedTickets pc =
      pre ++ prBlock pr ++ post) ∧
    (pr.similarity < 2/5 → prBlock pr = prBaseInfo pr) ∧
    (∀ s, pr.diffContent = some s → s ≠ "" → 2/5 ≤ pr.similarity →
      prBlock pr = prBaseInfo pr ++
        ("\n  Diff:\n```diff\n" ++ s.take 2000 ++
          (if 2000 < s.length then "\n  ... (diff truncated)" else "") ++ "\n```")) := by
  refine ⟨?_, ?_, ?_⟩
  · have hne : matchedPRs.length > 0 := List.length_pos.mpr (List.ne_nil_of_mem h)
    obtain ⟨pre, post, hpp⟩ :=
      joinSep_mem_split "\n" (matchedPRs.map prBlock) (prBlock pr)
        (List.mem_map_of_mem _ h)
    unfold buildContext
    dsimp only
    rw [if_pos hne, hpp]
    refine ⟨"\n" ++ pc ++
      "\n\n# >>> DYNAMIC KNOWLEDGE BASE SEARCH RESULTS <<<" ++
      "\n# These items were retrieved using semantic vector search from your developer database." ++
      "\n# Use these to COMPARE and DERIVE the best implementation path." ++
      "\n\n## Matched Pull Requests:\n" ++ pre,
      post ++ "\n \n## Matched Commits:\n" ++
      (if matchedCommits.length > 0
        then joinSep "\n" (matchedCommits.map commitBlock)
        else "No matching commits found") ++
      "\n \n## Related Jira Tickets:\n" ++
      (if matchedTickets.length > 0
        then joinSep "\n" (matchedTickets.map ticketBlock)
        else "No matching tickets found") ++
      "\n# >>> END OF KNOWLEDGE BASE CONTEXT <<<\n", ?_⟩
    simp only [String.append_assoc]
  · intro hlt
    cases hd : pr.diffContent with
    | none => simp [prBlock, hd]
    | some s => simp [prBlock, hd, not_le.mpr hlt]
  · intro s hs hne' hsim
    simp [prBlock, diffSection, hs, hne', hsim]

/-- Witness for C9 at a PR of similarity 0.82 with a short diff. -/
theorem buildContext_diff_gate_witness :
    (∃ pre post, buildContext [samplePR] [] [] "ctx" = pre ++ prBlock samplePR ++ post) ∧
    prBlock samplePR = prBaseInfo samplePR ++
      ("\n  Diff:\n```diff\n" ++ ("diff body").take 2000 ++
        (if 2000 < ("diff body").length then "\n  ... (diff truncated)" else "") ++ "\n```") := by
  obtain ⟨h1, _, h3⟩ :=
    buildContext_diff_gate [samplePR] [] [] "ctx" samplePR (by simp)
  exact ⟨h1, h3 "diff body" rfl (by decide) (by norm_num [samplePR])⟩

/-- Folding the square-accumulator from any start value adds `sumSq`. -/
theorem foldl_sumsq (l : List ℚ) : ∀ c : ℚ,
    l.foldl (fun sum val => sum + val * val) c = c + sumSq l := by
  induction l with
  | nil => intro c; simp [sumSq]
  | cons v vs ih =>
    intro c
    have h2 : sumSq (v :: vs) = (0 + v * v) + sumSq vs := by
      simp only [sumSq, List.foldl_cons]
      exact ih (0 + v * v)
    simp only [List.foldl_cons]
    rw [ih (c + v * v), h2]
    ring

/-- Unfolding of `sumSq` on a cons cell. -/
theorem sumSq_cons (x : ℚ) (t : List ℚ) : sumSq (x :: t) = x * x + sumSq t := by
  have h0 : sumSq (x :: t) =
      List.foldl (fun sum val => sum + val * val) (0 + x * x) t := rfl
  rw [h0, foldl_sumsq t (0 + x * x)]
  ring

/-- The accumulator loop of `cosineSimilarity` computes the dot product
and the two sums of squares. -/
theorem zip_foldl_acc : ∀ (a b : List ℚ) (init : ℚ × ℚ × ℚ),
    a.length = b.length →
    (a.zip b).foldl (fun (acc : ℚ × ℚ × ℚ) (xy : ℚ × ℚ) =>
      (acc.1 + xy.1 * xy.2, acc.2.1 + xy.1 * xy.1, acc.2.2 + xy.2 * xy.2)) init =
    (init.1 + dotProd a b, init.2.1 + sumSq a, init.2.2 + sumSq b) := by
  intro a
  induction a with
  | nil =>
    intro b init h
    cases b with
    | nil => simp [dotProd, sumSq]
    | cons y ys => simp at h
  | cons x xs ih =>
    intro b init h
    cases b with
    | nil => simp at h
    | cons y ys =>
      simp only [List.zip_cons_cons, List.foldl_cons]
      rw [ih ys _ (by simpa using h)]
      refine Prod.ext ?_ (Prod.ext ?_ ?_)
      · simp only [dotProd]
        ring
      · simp only [sumSq_cons]
        ring
      · simp only [sumSq_cons]
        ring

/-- C6: `cosineSimilarity` signals the dimension-mismatch error exactly
when the vectors have different lengths (it never silently truncates);
for equal lengths it returns 0 when either vector's Euclidean norm is
zero (equivalently, its sum of squares is zero), and otherwise the dot
product divided by the product of the Euclidean norms. -/
theorem cosineSimilarity_spec (sq : ℚ → ℚ) (hsq : ∀ x, sq x = 0 ↔ x = 0)
    (a b : List ℚ) :
    (a.length ≠ b.length →
      cosineSimilarity sq a b = .error "Embeddings must have the same dimension") ∧
    (cosineSimilarity sq a b = .error "Embeddings must have the same dimension" →
      a.length ≠ b.length) ∧
    (a.length = b.length →
      ((sumSq a = 0 ∨ sumSq b = 0) → cosineSimilarity sq a b = .ok 0) ∧
      (sumSq a ≠ 0 → sumSq b ≠ 0 →
        cosineSimilarity sq a b =
          .ok (dotProd a b / (sq (sumSq a) * sq (sumSq b))))) := by
  refine ⟨?_, ?_, ?_⟩
  · intro hne
    simp [cosineSimilarity, hne]
  · intro herr
    by_contra heqn
    rw [cosineSimilarity, if_neg (by simp [heqn])] at herr
    simp at herr
  · intro heq
    have hacc := zip_foldl_acc a b (0, 0, 0) heq
    have hcos : cosineSimilarity sq a b =
        .ok (if sq (sumSq a) * sq (sumSq b) = 0 then 0
             else dotProd a b / (sq (sumSq a) * sq (sumSq b))) := by
      rw [cosineSimilarity, if_neg (by simp [heq])]
      dsimp only
      rw [hacc]
      norm_num
    constructor
    · intro h0
      rw [hcos, if_pos]
      rcases h0 with h | h <;> rw [(hsq _).mpr h] <;> ring
    · intro ha hb
      rw [hcos, if_neg]
      intro hzero
      rcases mul_eq_zero.mp hzero with h | h
      · exact ha ((hsq _).mp h)
      · exact hb ((hsq _).mp h)

/-- Witness for C6 on concrete vectors with the identity as square
root stand-in. -/
theorem cosineSimilarity_spec_witness :
    cosineSimilarity id [1, 2] [3, 4] =
      .ok (dotProd [1, 2] [3, 4] / (id (sumSq [1, 2]) * id (sumSq [3, 4]))) ∧
    cosineSimilarity id [1] [3, 4] = .error "Embeddings must have the same dimension" := by
  obtain ⟨_, _, hc⟩ := cosineSimilarity_spec id (fun x => Iff.rfl) [1, 2] [3, 4]
  obtain ⟨he, _, _⟩ := cosineSimilarity_spec id (fun x => Iff.rfl) [1] [3, 4]
  exact ⟨(hc rfl).2 (by norm_num [sumSq]) (by norm_num [sumSq]), he (by norm_num)⟩

/-- Every accumulation index is reduced modulo the embedding
dimension. -/
theorem hitIndices_lt (w : List (List Char)) :
    ∀ i ∈ hitIndices w, i < EMBEDDING_DIMENSION := by
  intro i hi
  simp only [hitIndices, List.mem_flatten, List.mem_map] at hi
  obtain ⟨l, ⟨iw, _, rfl⟩, hil⟩ := hi
  simp only [List.mem_map] at hil
  obtain ⟨jc, _, rfl⟩ := hil
  exact Nat.mod_lt _ (by norm_num [EMBEDDING_DIMENSION])

/-- Bumping preserves the vector length. -/
theorem bump_length (v : List ℚ) (i : ℕ) : (bump v i).length = v.length := by
  simp [bump]

/-- Entry-wise effect of one bump at an in-range index. -/
theorem bump_getD (v : List ℚ) (i k : ℕ) (hi : i < v.length) :
    (bump v i).getD k 0 = if k = i then v.getD k 0 + 1/10 else v.getD k 0 := by
  unfold bump
  by_cases hk : k = i
  · subst hk
    rw [if_pos rfl]
    rw [List.getD_eq_getElem _ _ (show k < (v.set k (v.getD k 0 + 1/10)).length by
      simpa using hi)]
    rw [List.getElem_set_self]
  · rw [if_neg hk]
    rw [List.getD_eq_getElem?_getD, List.getD_eq_getElem?_getD]
    rw [List.getElem?_set_ne (Ne.symm hk)]
    rw [← List.getD_eq_getElem?_getD]

/-- Folding bumps preserves the vector length. -/
theorem foldl_bump_length (hits : List ℕ) : ∀ v : List ℚ,
    (hits.foldl bump v).length = v.length := by
  induction hits with
  | nil => intro v; rfl
  | cons i t ih =>
    intro v
    simp only [List.foldl_cons]
    rw [ih (bump v i), bump_length]

/-- Entry `k` of the accumulated vector holds the initial entry plus
`0.1` for every hit of `k`. -/
theorem foldl_bump_getD : ∀ (hits : List ℕ) (v : List ℚ),
    (∀ i ∈ hits, i < v.length) → ∀ k,
    (hits.foldl bump v).getD k 0 = v.getD k 0 + (1/10) * hits.count k := by
  intro hits
  induction hits with
  | nil => intro v _ k; simp
  | cons i t ih =>
    intro v h k
    simp only [List.foldl_cons]
    have hlen : ∀ j ∈ t, j < (bump v i).length := by
      intro j hj
      rw [bump_length]
      exact h j (List.mem_cons_of_mem _ hj)
    rw [ih (bump v i) hlen k, bump_getD v i k (h i (List.mem_cons_self i t))]
    by_cases hk : k = i
    · subst hk
      rw [if_pos rfl]
      simp only [List.count_cons, beq_self_eq_true, if_true]
      push_cast
      ring
    · rw [if_neg hk]
      simp only [List.count_cons, beq_iff_eq, if_neg (Ne.symm hk)]
      push_cast
      ring

/-- The raw accumulated vector of the source equals the entry-wise
description of the spec: entry `k` is `0.1` times the number of hits
at `k`. -/
theorem accum_eq_spec (w : List (List Char)) :
    (hitIndices w).foldl bump (List.replicate EMBEDDING_DIMENSION 0) =
    (List.range EMBEDDING_DIMENSION).map
      (fun k => (1/10 : ℚ) * ((hitIndices w).count k)) := by
  apply List.ext_getElem
  · rw [foldl_bump_length]
    simp
  · intro n h1 h2
    have hn : n < EMBEDDING_DIMENSION := by simpa using h2
    have hbound : ∀ i ∈ hitIndices w, i < (List.replicate EMBEDDING_DIMENSION (0 : ℚ)).length := by
      intro i hi
      simpa using hitIndices_lt w i hi
    have hd := foldl_bump_getD (hitIndices w) (List.replicate EMBEDDING_DIMENSION 0) hbound n
    rw [List.getD_eq_getElem _ _ h1] at hd
    rw [hd]
    rw [List.getElem_map, List.getElem_range]
    rw [List.getD_eq_getElem _ _ (by simpa using hn), List.getElem_replicate]
    ring

/-- C7: the deterministic fallback embedding is a pure function of the
text (identical text gives identical vectors) and agrees with the
spec's reference algorithm: accumulate `0.1` at
`(c * (i+1) * (j+1)) mod 768` over the lower-cased whitespace-split
words, then divide every entry by the L2 norm (by 1 when the norm is
zero). -/
theorem generateDeterministicEmbedding_spec (sq : ℚ → ℚ) (text : String) :
    generateDeterministicEmbedding sq text = deterministicEmbeddingSpec sq text ∧
    ∀ t2 : String, text = t2 →
      generateDeterministicEmbedding sq text = generateDeterministicEmbedding sq t2 := by
  constructor
  · unfold generateDeterministicEmbedding deterministicEmbeddingSpec
    dsimp only
    rw [accum_eq_spec (wordsOf text)]
  · intro t2 h
    rw [h]

/-- Witness for C7 at a concrete text. -/
theorem generateDeterministicEmbedding_spec_witness :
    generateDeterministicEmbedding id "ab cd" = deterministicEmbeddingSpec id "ab cd" ∧
    generateDeterministicEmbedding id "ab cd" = generateDeterministicEmbedding id "ab cd" := by
  obtain ⟨h1, h2⟩ := generateDeterministicEmbedding_spec id "ab cd"
  exact ⟨h1, h2 "ab cd" rfl⟩

/-- A successful annotation decorates the candidates in order: the
first components are exactly the input list. -/
theorem annotate_fst (sq : ℚ → ℚ) (q : List ℚ) :
    ∀ (ds : List (Doc α)) (l : List (Doc α × ℚ)),
    annotate sq q ds = .ok l → l.map Prod.fst = ds := by
  intro ds
  induction ds with
  | nil =>
    intro l h
    simp only [annotate, Except.ok.injEq] at h
    simp [← h]
  | cons d t ih =>
    intro l h
    unfold annotate at h
    cases hcos : cosineSimilarity sq q d.embedding with
    | error e => rw [hcos] at h; simp at h
    | ok s =>
      rw [hcos] at h
      cases hann : annotate sq q t with
      | error e => rw [hann] at h; simp at h
      | ok rest =>
        rw [hann] at h
        simp only [Except.ok.injEq] at h
        subst h
        simp [ih rest hann]

/-- Inserting is a permutation of consing. -/
theorem insertDesc_perm (x : Doc α × ℚ) : ∀ l, (insertDesc x l).Perm (x :: l) := by
  intro l
  induction l with
  | nil => simp [insertDesc]
  | cons y ys ih =>
    unfold insertDesc
    by_cases hc : x.2 < y.2
    · rw [if_pos hc]
      exact (ih.cons y).trans (List.Perm.swap x y ys)
    · rw [if_neg hc]

/-- Inserting preserves the non-increasing-similarity invariant. -/
theorem insertDesc_pairwise (x : Doc α × ℚ) :
    ∀ l, l.Pairwise (fun a b : Doc α × ℚ => b.2 ≤ a.2) →
    (insertDesc x l).Pairwise (fun a b => b.2 ≤ a.2) := by
  intro l
  induction l with
  | nil => intro _; simp [insertDesc]
  | cons y ys ih =>
    intro hp
    rw [List.pairwise_cons] at hp
    obtain ⟨hy, hys⟩ := hp
    unfold insertDesc
    by_cases hc : x.2 < y.2
    · rw [if_pos hc]
      rw [List.pairwise_cons]
      refine ⟨?_, ih hys⟩
      intro z hz
      rcases List.mem_cons.mp ((insertDesc_perm x ys).mem_iff.mp hz) with rfl | hzys
      · exact le_of_lt hc
      · exact hy z hzys
    · rw [if_neg hc]
      rw [List.pairwise_cons]
      refine ⟨?_, List.pairwise_cons.mpr ⟨hy, hys⟩⟩
      intro z hz
      rcases List.mem_cons.mp hz with rfl | hzys
      · exact not_lt.mp hc
      · exact le_trans (hy z hzys) (not_lt.mp hc)

/-- Sorting is a permutation. -/
theorem sortBySimDesc_perm : ∀ l : List (Doc α × ℚ), (sortBySimDesc l).Perm l := by
  intro l
  induction l with
  | nil => simp [sortBySimDesc]
  | cons x xs ih =>
    exact (insertDesc_perm x (sortBySimDesc xs)).trans (ih.cons x)

/-- The sorted list is non-increasing in similarity. -/
theorem sortBySimDesc_pairwise :
    ∀ l : List (Doc α × ℚ), (sortBySimDesc l).Pairwise (fun a b => b.2 ≤ a.2) := by
  intro l
  induction l with
  | nil => simp [sortBySimDesc]
  | cons x xs ih => exact insertDesc_pairwise x _ ih

/-- Filtering to one similarity value commutes with inserting: the new
element lands in front of its ties, matching its input position. -/
theorem filter_insertDesc (x : Doc α × ℚ) (s : ℚ) : ∀ l,
    (insertDesc x l).filter (fun z => decide (z.2 = s)) =
    if x.2 = s then x :: l.filter (fun z => decide (z.2 = s))
    else l.filter (fun z => decide (z.2 = s)) := by
  intro l
  induction l with
  | nil => by_cases hx : x.2 = s <;> simp [insertDesc, hx]
  | cons y ys ih =>
    unfold insertDesc
    by_cases hc : x.2 < y.2
    · rw [if_pos hc]
      by_cases hy : y.2 = s
      · by_cases hx : x.2 = s
        · exact absurd (hx.trans hy.symm) (ne_of_lt hc)
        · simp [List.filter_cons, hy, hx, ih]
      · simp [List.filter_cons, hy, ih]
    · rw [if_neg hc]
      by_cases hx : x.2 = s <;> simp [List.filter_cons, hx]

/-- Stability of the sort: the subsequence at any fixed similarity is
exactly the input subsequence at that similarity. -/
theorem sortBySimDesc_filter (s : ℚ) :
    ∀ l : List (Doc α × ℚ),
    (sortBySimDesc l).filter (fun z => decide (z.2 = s)) =
      l.filter (fun z => decide (z.2 = s)) := by
  intro l
  induction l with
  | nil => simp [sortBySimDesc]
  | cons x xs ih =>
    show (insertDesc x (sortBySimDesc xs)).filter _ = _
    rw [filter_insertDesc]
    by_cases hx : x.2 = s <;> simp [List.filter_cons, hx, ih]

/-- Filtering a prefix (a `take`) yields a prefix of the filtered
list. -/
theorem filter_take_prefixOf (p : Doc α × ℚ → Bool) (l : List (Doc α × ℚ)) (n : ℕ) :
    PrefixOf ((l.take n).filter p) (l.filter p) :=
  ⟨(l.drop n).filter p, by rw [← List.filter_append, List.take_append_drop]⟩

/-- The filter / annotate / threshold / sort / truncate pipeline shared
by all four search functions satisfies the search contract. -/
theorem pipeline_good (sq : ℚ → ℚ) (q : List ℚ) (thr : ℚ) (lim : ℕ)
    (pool : List (Doc α)) (ann : List (Doc α × ℚ))
    (hann : annotate sq q (pool.filter (fun doc => !doc.embedding.isEmpty)) = .ok ann) :
    GoodSearchOutput sq q pool thr lim
      ((sortBySimDesc (ann.filter (fun x => thr ≤ x.2))).take lim) := by
  refine ⟨?_, ?_, ?_, ann, hann, ?_⟩
  · intro x hx
    have hx1 : x ∈ sortBySimDesc (ann.filter (fun x => thr ≤ x.2)) :=
      List.mem_of_mem_take hx
    have hx2 : x ∈ ann.filter (fun x => thr ≤ x.2) :=
      (sortBySimDesc_perm _).mem_iff.mp hx1
    have hx3 := List.mem_filter.mp hx2
    have hthr : thr ≤ x.2 := by simpa using hx3.2
    have hfst : x.1 ∈ pool.filter (fun doc => !doc.embedding.isEmpty) := by
      have hmap := annotate_fst sq q _ ann hann
      rw [← hmap]
      exact List.mem_map_of_mem Prod.fst hx3.1
    have hmem := List.mem_filter.mp hfst
    refine ⟨hmem.1, ?_, hthr⟩
    have := hmem.2
    simp only [Bool.not_eq_true'] at this
    intro hcon
    rw [← List.isEmpty_iff] at hcon
    rw [hcon] at this
    simp at this
  · exact List.Pairwise.sublist (List.take_sublist _ _) (sortBySimDesc_pairwise _)
  · simp [List.length_take]
  · intro s
    have h1 := filter_take_prefixOf (fun z => decide (z.2 = s))
      (sortBySimDesc (ann.filter (fun x => thr ≤ x.2))) lim
    rwa [sortBySimDesc_filter] at h1

/-- C5: on success, every one of the search functions
(`findSimilarByEmbedding`, `searchSimilarPRs`, `searchSimilarCommits`,
`searchSimilarTickets`) returns only candidates with a non-empty
embedding, every returned similarity is at or above the threshold, the
output is non-increasing in similarity with ties in stable input order,
and at most `limit` items are returned. -/
theorem search_contract (sq : ℚ → ℚ) (q : List ℚ) (thr : ℚ) (lim : ℕ)
    (docs prDb commitDb ticketDb : List (Doc α))
    (out1 out2 out3 out4 : List (Doc α × ℚ))
    (h1 : findSimilarByEmbedding sq q docs thr lim = .ok out1)
    (h2 : searchSimilarPRs sq prDb q thr lim = .ok out2)
    (h3 : searchSimilarCommits sq commitDb q thr lim = .ok out3)
    (h4 : searchSimilarTickets sq ticketDb q thr lim = .ok out4) :
    GoodSearchOutput sq q docs thr lim out1 ∧
    GoodSearchOutput sq q prDb thr lim out2 ∧
    GoodSearchOutput sq q commitDb thr lim out3 ∧
    GoodSearchOutput sq q ticketDb thr lim out4 := by
  refine ⟨?_, ?_, ?_, ?_⟩
  · unfold findSimilarByEmbedding at h1
    cases hann : annotate sq q (docs.filter (fun doc => !doc.embedding.isEmpty)) with
    | error e => rw [hann] at h1; simp at h1
    | ok ann =>
      rw [hann] at h1
      simp only [Except.ok.injEq] at h1
      rw [← h1]
      exact pipeline_good sq q thr lim docs ann hann
  · unfold searchSimilarPRs at h2
    cases hann : annotate sq q (prDb.filter (fun doc => !doc.embedding.isEmpty)) with
    | error e => rw [hann] at h2; simp at h2
    | ok ann =>
      rw [hann] at h2
      simp only [Except.ok.injEq] at h2
      rw [← h2]
      exact pipeline_good sq q thr lim prDb ann hann
  · unfold searchSimilarCommits at h3
    cases hann : annotate sq q (commitDb.filter (fun doc => !doc.embedding.isEmpty)) with
    | error e => rw [hann] at h3; simp at h3
    | ok ann =>
      rw [hann] at h3
      simp only [Except.ok.injEq] at h3
      rw [← h3]
      exact pipeline_good sq q thr lim commitDb ann hann
  · unfold searchSimilarTickets at h4
    cases hann : annotate sq q (ticketDb.filter (fun doc => !doc.embedding.isEmpty)) with
    | error e => rw [hann] at h4; simp at h4
    | ok ann =>
      rw [hann] at h4
      simp only [Except.ok.injEq] at h4
      rw [← h4]
      exact pipeline_good sq q thr lim ticketDb ann hann

/-- Concrete evaluation of the pipeline on the witness pool. -/
theorem wSearch_eval :
    annotate id [1] ([wDocGood, wDocEmpty].filter (fun doc => !doc.embedding.isEmpty)) =
      .ok [(wDocGood, 1)] := by
  norm_num [annotate, cosineSimilarity, wDocGood, wDocEmpty]

/-- Concrete evaluation of the sort / threshold / truncate tail of the
pipeline on the witness pool. -/
theorem wPipeline_eval :
    (sortBySimDesc (([(wDocGood, (1 : ℚ))]).filter
      (fun x => (0 : ℚ) ≤ x.2))).take 10 = [(wDocGood, 1)] := by
  norm_num [List.filter_cons, sortBySimDesc, insertDesc]

/-- Witness for C5 on a two-candidate pool (one empty embedding). -/
theorem search_contract_witness :
    GoodSearchOutput id [1] [wDocGood, wDocEmpty] 0 10 [(wDocGood, 1)] ∧
    GoodSearchOutput id [1] [wDocGood, wDocEmpty] 0 10 [(wDocGood, 1)] ∧
    GoodSearchOutput id [1] [wDocGood, wDocEmpty] 0 10 [(wDocGood, 1)] ∧
    GoodSearchOutput id [1] [wDocGood, wDocEmpty] 0 10 [(wDocGood, 1)] := by
  have hfind : findSimilarByEmbedding id [1] [wDocGood, wDocEmpty] 0 10 =
      .ok [(wDocGood, 1)] := by
    unfold findSimilarByEmbedding
    rw [wSearch_eval]
    dsimp only
    rw [wPipeline_eval]
  have hprs : searchSimilarPRs id [wDocGood, wDocEmpty] [1] 0 10 =
      .ok [(wDocGood, 1)] := by
    unfold searchSimilarPRs
    rw [wSearch_eval]
    dsimp only
    rw [wPipeline_eval]
  have hcommits : searchSimilarCommits id [wDocGood, wDocEmpty] [1] 0 10 =
      .ok [(wDocGood, 1)] := by
    unfold searchSimilarCommits
    rw [wSearch_eval]
    dsimp only
    rw [wPipeline_eval]
  have htickets : searchSimilarTickets id [wDocGood, wDocEmpty] [1] 0 10 =
      .ok [(wDocGood, 1)] := by
    unfold searchSimilarTickets
    rw [wSearch_eval]
    dsimp only
    rw [wPipeline_eval]
  exact search_contract id [1] 0 10 [wDocGood, wDocEmpty] [wDocGood, wDocEmpty]
    [wDocGood, wDocEmpty] [wDocGood, wDocEmpty] [(wDocGood, 1)] [(wDocGood, 1)]
    [(wDocGood, 1)] [(wDocGood, 1)] hfind hprs hcommits htickets

/-- If any candidate in the annotated pool has an embedding whose
length differs from the query, the annotation step fails with the
dimension-mismatch error. -/
theorem annotate_error_of_mismatch (sq : ℚ → ℚ) (q : List ℚ) :
    ∀ ds : List (Doc α), (∃ d ∈ ds, d.embedding.length ≠ q.length) →
    annotate sq q ds = .error "Embeddings must have the same dimension" := by
  intro ds
  induction ds with
  | nil =>
    rintro ⟨d, hd, _⟩
    simp at hd
  | cons d0 t ih =>
    rintro ⟨d, hd, hne⟩
    unfold annotate
    by_cases h0 : q.length = d0.embedding.length
    · have hcos : ∃ v, cosineSimilarity sq q d0.embedding = .ok v := by
        rw [cosineSimilarity, if_neg (by simp [h0])]
        exact ⟨_, rfl⟩
      obtain ⟨v, hcos⟩ := hcos
      rw [hcos]
      have hdt : d ∈ t := by
        rcases List.mem_cons.mp hd with rfl | hmem
        · exact absurd h0.symm hne
        · exact hmem
      rw [ih ⟨d, hdt, hne⟩]
    · rw [show cosineSimilarity sq q d0.embedding =
          .error "Embeddings must have the same dimension" from by
        rw [cosineSimilarity, if_pos h0]]

/-- C10: a candidate with a non-empty embedding of the wrong dimension
makes the whole search (`searchSimilarPRs` / `searchSimilarCommits` /
`searchSimilarTickets`) fail with the dimension-mismatch error from
`cosineSimilarity`, rather than being skipped — only candidates with
empty embeddings are filtered out before comparison. -/
theorem search_dimension_mismatch (sq : ℚ → ℚ) (q : List ℚ) (thr : ℚ) (lim : ℕ)
    (db : List (Doc α)) (d : Doc α) (hd : d ∈ db) (hne : d.embedding ≠ [])
    (hlen : d.embedding.length ≠ q.length) :
    searchSimilarPRs sq db q thr lim =
      .error "Embeddings must have the same dimension" ∧
    searchSimilarCommits sq db q thr lim =
      .error "Embeddings must have the same dimension" ∧
    searchSimilarTickets sq db q thr lim =
      .error "Embeddings must have the same dimension" := by
  have hdf : d ∈ db.filter (fun doc => !doc.embedding.isEmpty) := by
    refine List.mem_filter.mpr ⟨hd, ?_⟩
    simp only [Bool.not_eq_true', ← List.isEmpty_iff] at hne ⊢
    simp [Bool.not_eq_true] at hne ⊢
    exact hne
  have hann := annotate_error_of_mismatch sq q
    (db.filter (fun doc => !doc.embedding.isEmpty)) ⟨d, hdf, hlen⟩
  refine ⟨?_, ?_, ?_⟩
  · unfold searchSimilarPRs
    rw [hann]
  · unfold searchSimilarCommits
    rw [hann]
  · unfold searchSimilarTickets
    rw [hann]

/-- Witness for C10: a pool holding a two-dimensional embedding against
a one-dimensional query. -/
theorem search_dimension_mismatch_witness :
    searchSimilarPRs id [wDocGood, wDocBad] [1] 0 10 =
      .error "Embeddings must have the same dimension" ∧
    searchSimilarCommits id [wDocGood, wDocBad] [1] 0 10 =
      .error "Embeddings must have the same dimension" ∧
    searchSimilarTickets id [wDocGood, wDocBad] [1] 0 10 =
      .error "Embeddings must have the same dimension" :=
  search_dimension_mismatch id [1] 0 10 [wDocGood, wDocBad] wDocBad
    (by simp) (by simp [wDocBad]) (by simp [wDocBad])

end CodeCompanion
